import Mathlib

/-!
Verification of the resumable bulk crawler in `download_pcc_data.py`
(class `PCCDownloader`).  The definitions below are a shallow embedding of
the Python source: JSON values are modelled by `JVal`, per-attempt network
behaviour by `Attempt`, and the two crawler passes by explicit state-passing
folds that also emit a trace of I/O events (sink writes, sink flushes,
checkpoint writes, fetches).
-/

namespace PCC

/-- JSON values as returned by `response.json()`.  Objects keep insertion
order of their fields, as Python dicts do. -/
inductive JVal where
  | jnull
  | jbool (b : Bool)
  | jnum (n : Int)
  | jstr (s : String)
  | jarr (elems : List JVal)
  | jobj (fields : List (String × JVal))

/-- Python truthiness (`if result:` / `if data:` / `if detail:`). -/
def pyTruthy : JVal → Bool
  | .jnull => false
  | .jbool b => b
  | .jnum n => n != 0
  | .jstr s => s != ""
  | .jarr l => !l.isEmpty
  | .jobj fs => !fs.isEmpty

/-- Python `len(...)`: defined for strings, lists and dicts; `none` models
a `TypeError` on other values. -/
def pyLen : JVal → Option Nat
  | .jstr s => some s.length
  | .jarr l => some l.length
  | .jobj fs => some fs.length
  | _ => none

/-- Is the value a dict?  (`isinstance(result, dict)`). -/
def isObjB : JVal → Bool
  | .jobj _ => true
  | _ => false

/-- First-match lookup in a field list (Python `dict` access). -/
def lookupField : List (String × JVal) → String → Option JVal
  | [], _ => none
  | (k, v) :: fs, key => if k = key then some v else lookupField fs key

/-- Python `d[key] = v`: overwrite in place preserving order, or append. -/
def setField : List (String × JVal) → String → JVal → List (String × JVal)
  | [], key, v => [(key, v)]
  | (k, w) :: fs, key, v =>
      if k = key then (k, v) :: fs else (k, w) :: setField fs key v

/-- Python `result.get(key, default)` on a dict value; non-dicts are never
queried by the modelled code paths. -/
def getKeyD (v : JVal) (key : String) (dflt : JVal) : JVal :=
  match v with
  | .jobj fs => (lookupField fs key).getD dflt
  | _ => dflt

/-! ## Fetch client: `PCCDownloader._request_with_retry` and `list_by_date` -/

/-- Outcome of a single HTTP attempt inside `_request_with_retry`:
a 429 status, a `requests.exceptions.Timeout`, a non-2xx status on which
`raise_for_status` raises, or a successful, JSON-parsed body. -/
inductive Attempt where
  | rate429
  | timeout
  | httpErr (code : Nat)
  | ok (body : JVal)

/-- Python exceptions that can escape `_request_with_retry`.  Both are
subclasses of `requests.exceptions.RequestException`. -/
inductive PyExc where
  | timeout
  | httpStatus (code : Nat)

/-- Python `isinstance(e, requests.exceptions.RequestException)`. -/
def isRequestException : PyExc → Bool
  | .timeout => true
  | .httpStatus _ => true

/-- What `_request_with_retry` produces: a value (`return response.json()`),
the trailing `return None` after the `for` loop exhausts, or a raised
exception.  `sleeps` records each `time.sleep` duration in order. -/
inductive FetchOutcome where
  | value (v : JVal)
  | noneReturned
  | raised (e : PyExc)

structure FetchResult where
  sleeps : List Nat
  outcome : FetchOutcome

/-- The `for attempt in range(max_retries)` loop of `_request_with_retry`.
`env i` is the network's answer to attempt number `i`; `remaining` counts
attempts left, so the current attempt index is `maxRetries - remaining`.
On 429 it sleeps `10 * (attempt + 1)` and retries; on timeout it sleeps 5
and retries unless this was the last attempt, in which case it re-raises;
other non-2xx statuses raise immediately via `raise_for_status`. -/
def requestLoop (env : Nat → Attempt) (maxRetries : Nat) :
    Nat → List Nat → FetchResult
  | 0, sleeps => { sleeps := sleeps, outcome := .noneReturned }
  | remaining + 1, sleeps =>
      let i := maxRetries - (remaining + 1)
      match env i with
      | .rate429 => requestLoop env maxRetries remaining (sleeps ++ [10 * (i + 1)])
      | .timeout =>
          if remaining = 0 then { sleeps := sleeps, outcome := .raised .timeout }
          else requestLoop env maxRetries remaining (sleeps ++ [5])
      | .httpErr c => { sleeps := sleeps, outcome := .raised (.httpStatus c) }
      | .ok v => { sleeps := sleeps, outcome := .value v }

/-- The method `_request_with_retry(url, params, max_retries)`. -/
def requestWithRetry (env : Nat → Attempt) (maxRetries : Nat := 3) : FetchResult :=
  requestLoop env maxRetries maxRetries []

/-- Result of a Python call: a returned value or a raised exception. -/
inductive PyResult (α : Type) where
  | ok (a : α)
  | exc (e : PyExc)

/-- The method `list_by_date`: fetch with the default 3 retries, then
`if result and isinstance(result, dict): return result.get('records', [])`
with `return []` otherwise.  A raised exception propagates. -/
def listByDate (env : Nat → Attempt) : PyResult JVal :=
  match (requestWithRetry env 3).outcome with
  | .raised e => .exc e
  | .noneReturned => .ok (.jarr [])
  | .value v =>
      .ok (if pyTruthy v && isObjB v then getKeyD v "records" (.jarr []) else .jarr [])

/-! ## List crawler: `PCCDownloader.download_all_data`

Dates are modelled as natural numbers (the loop only needs ordering and
`+ 1`); the `date_str` stamped into records is `toString` of the date.
The crawler emits a trace of I/O events so that the ordering of sink
writes, sink flushes and checkpoint writes can be examined. -/

/-- I/O events of the list pass, in program order. -/
inductive Ev where
  | fetch (d : Nat)
  | sinkWrite (line : JVal)
  | sinkFlush
  | ckptWrite (dates : List Nat) (total : Nat)

/-- Mutable state of `download_all_data`: the `downloaded_dates` set (as a
duplicate-free list in insertion order), `downloaded_count`,
`total_tenders`, and the sink file's unflushed buffer and flushed
contents. -/
structure St where
  dd : List Nat
  dc : Nat
  total : Nat
  buffer : List JVal
  disk : List JVal

/-- The per-record loop `for item in data: item['_download_date'] = date_str;
data_file.write(...)`.  Returns the lines written and whether a `TypeError`
interrupted the loop (stamping a non-dict item raises, after the earlier
items were already written). -/
def writeItems (d : Nat) : List JVal → List JVal × Bool
  | [] => ([], false)
  | .jobj fs :: rest =>
      let line := JVal.jobj (setField fs "_download_date" (.jstr (toString d)))
      let r := writeItems d rest
      (line :: r.1, r.2)
  | _ :: _ => ([], true)

/-- The stamped form of a single record: what `writeItems` produces for a
dict item. -/
def stampRec (d : Nat) : JVal → JVal
  | .jobj fs => .jobj (setField fs "_download_date" (.jstr (toString d)))
  | v => v

/-- The periodic save `if downloaded_count % save_interval == 0: self._save_progress(...);
data_file.flush()` — note the checkpoint is written BEFORE the sink flush. -/
def saveCheck (si : Nat) (s : St) (evs : List Ev) : St × List Ev :=
  if s.dc % si == 0 then
    ({ s with disk := s.disk ++ s.buffer, buffer := [] },
     evs ++ [Ev.ckptWrite s.dd s.total, Ev.sinkFlush])
  else (s, evs)

/-- The body of `data = self.list_by_date(date_str)` and everything after it
inside the `try`: truthiness test, `len`, the write loop, marking the date
downloaded, and the two `except` arms.  A `RequestException` does
`continue`, skipping even the periodic-save check; any other exception
falls through to it. -/
def handleData (si : Nat) (s : St) (d : Nat) (data : JVal) : St × List Ev :=
  if pyTruthy data then
    match pyLen data with
    | none => saveCheck si s [Ev.fetch d]
    | some count =>
        match data with
        | .jarr items =>
            let wr := writeItems d items
            let s1 := { s with buffer := s.buffer ++ wr.1 }
            let evs := Ev.fetch d :: wr.1.map Ev.sinkWrite
            if wr.2 then saveCheck si s1 evs
            else
              saveCheck si
                { s1 with total := s1.total + count, dd := s1.dd ++ [d], dc := s1.dc + 1 }
                evs
        | _ => saveCheck si s [Ev.fetch d]
  else
    saveCheck si { s with dd := s.dd ++ [d], dc := s.dc + 1 } [Ev.fetch d]

/-- Processing of one non-skipped date: `net d` gives the network behaviour
for that date's attempts. -/
def processDate (net : Nat → Nat → Attempt) (si : Nat) (s : St) (d : Nat) :
    St × List Ev :=
  match listByDate (net d) with
  | .exc e =>
      if isRequestException e then (s, [Ev.fetch d])
      else saveCheck si s [Ev.fetch d]
  | .ok data => handleData si s d data

/-- The `while current_date <= end_date` loop: skip dates already in
`downloaded_dates` without fetching, otherwise process them. -/
def crawlLoop (net : Nat → Nat → Attempt) (si : Nat) :
    List Nat → St → St × List Ev
  | [], s => (s, [])
  | d :: ds, s =>
      if d ∈ s.dd then crawlLoop net si ds s
      else
        let r := processDate net si s d
        let r2 := crawlLoop net si ds r.1
        (r2.1, r.2 ++ r2.2)

/-- The closed date interval `[startD, endD]` walked by the loop
(empty when `endD < startD`). -/
def dateRange (startD endD : Nat) : List Nat :=
  List.range' startD (endD + 1 - startD)

/-- The driver `download_all_data`: load the checkpoint (`init` is the persisted
`downloaded_dates` set; `total_tenders` always restarts at 0 because the
loader only reads the date set), run the loop, then the `with` block closes
(flushing the sink) and a final `_save_progress` writes the checkpoint. -/
def downloadAllData (net : Nat → Nat → Attempt) (startD endD : Nat)
    (init : List Nat) (si : Nat) : St × List Ev :=
  let s0 : St := { dd := init, dc := 0, total := 0, buffer := [], disk := [] }
  let r := crawlLoop net si (dateRange startD endD) s0
  ({ r.1 with disk := r.1.disk ++ r.1.buffer, buffer := [] },
   r.2 ++ [Ev.sinkFlush, Ev.ckptWrite r.1.dd r.1.total])

/-- The dates fetched, in trace order. -/
def fetchEvents (evs : List Ev) : List Nat :=
  evs.filterMap fun e => match e with | .fetch d => some d | _ => none

/-- The `total_tenders` counter value recorded by each checkpoint write,
in trace order. -/
def ckptTotals (evs : List Ev) : List Nat :=
  evs.filterMap fun e => match e with | .ckptWrite _ t => some t | _ => none

/-- The record lines appended to the sink, in trace order. -/
def sinkWrites (evs : List Ev) : List JVal :=
  evs.filterMap fun e => match e with | .sinkWrite l => some l | _ => none

/-! ## Durable on-disk view of a trace prefix -/

/-- What is durably on disk at some point of the run: the sink file's
unflushed buffer and flushed contents, and the last written checkpoint
(dates plus `total_tenders`), if any. -/
structure DiskSt where
  buffer : List JVal
  flushed : List JVal
  ckpt : Option (List Nat × Nat)

def replayStep (st : DiskSt) : Ev → DiskSt
  | .fetch _ => st
  | .sinkWrite v => { st with buffer := st.buffer ++ [v] }
  | .sinkFlush => { st with flushed := st.flushed ++ st.buffer, buffer := [] }
  | .ckptWrite dd t => { st with ckpt := some (dd, t) }

/-- Disk state after a prefix of the event trace. -/
def replay (evs : List Ev) : DiskSt :=
  evs.foldl replayStep { buffer := [], flushed := [], ckpt := none }

/-- The `_download_date` stamp of a sink line. -/
def lineDate : JVal → Option String
  | .jobj fs =>
      match lookupField fs "_download_date" with
      | some (.jstr s) => some s
      | _ => none
  | _ => none

/-- A violation of the claimed invariant: the on-disk checkpoint lists a
completed date while some record of that date is still in the sink's
unflushed buffer. -/
def violation (st : DiskSt) : Bool :=
  match st.ckpt with
  | none => false
  | some (dd, _) =>
      st.buffer.any fun v =>
        match lineDate v with
        | some s => dd.any fun d => toString d == s
        | none => false

/-- Head condition for `savesPaired`: a checkpoint write must be
immediately followed by a sink flush. -/
def headOK : Ev → List Ev → Bool
  | .ckptWrite _ _, .sinkFlush :: _ => true
  | .ckptWrite _ _, _ => false
  | _, _ => true

/-- Every checkpoint write in the list is immediately followed by a sink
flush. -/
def savesPaired : List Ev → Bool
  | [] => true
  | e :: rest => headOK e rest && savesPaired rest

/-- Like `savesPaired`, but the very last event is unconstrained, so a
final checkpoint write (the `_save_progress` after the sink file is closed)
is allowed to end the trace. -/
def savesPairedF : List Ev → Bool
  | [] => true
  | [_] => true
  | e :: rest => headOK e rest && savesPairedF rest

/-! ## Detail crawler: `PCCDownloader.download_tender_details` -/

/-- A parsed line of `all_tenders.jsonl` as the detail pass sees it: a
string-valued record (the identifier fields consumed by the code are
strings). -/
structure DTender where
  fields : List (String × String)
deriving DecidableEq

/-- Python `tender.get(key)` (no default). -/
def dget (t : DTender) (key : String) : Option String :=
  match t.fields.find? fun kv => kv.1 == key with
  | some kv => some kv.2
  | none => none

/-- Python `tender.get(key, '')`. -/
def dgetD (t : DTender) (key : String) : String :=
  (dget t key).getD ""

/-- Truthiness of `tender.get(key)`: missing key or empty string is falsy. -/
def dTruthy (o : Option String) : Bool :=
  match o with
  | some s => s != ""
  | none => false

/-- The composite key `f"{unit_id}_{job_number}"`. -/
def tenderId (t : DTender) : String :=
  dgetD t "unit_id" ++ "_" ++ dgetD t "job_number"

/-- The candidate-building scan over `all_tenders.jsonl`: unparseable lines
(`none`) are skipped, and a parsed tender is kept when its id is not in the
loaded `downloaded_ids` set and both identifier fields are truthy.  Note
that nothing deduplicates repeated pairs within the scan itself. -/
def buildCandidates (lines : List (Option DTender)) (ids0 : List String) :
    List DTender :=
  (lines.filterMap id).filter fun t =>
    !(ids0.contains (tenderId t)) && dTruthy (dget t "unit_id")
      && dTruthy (dget t "job_number")

/-- Result of `get_tender_detail` for one pair: a JSON value, the `None`
fallthrough, or a raised exception. -/
inductive DResp where
  | val (v : JVal)
  | noneReturned
  | exc

/-- I/O events of the detail pass. -/
inductive DEv where
  | fetch (u j : String)
  | write (v : JVal)
  | ckptWrite (ids : List String)
  | flush

/-- State of the detail loop: the `downloaded_ids` set, the success counter
`count`, and the detail sink's buffer and flushed contents. -/
structure DSt where
  ids : List String
  count : Nat
  buffer : List JVal
  disk : List JVal

/-- One iteration of `for tender in tenders`: the fetch always happens;
only a truthy detail is written, counted and id-marked, and every
`batch_size` successes the checkpoint is written and then the sink is
flushed. -/
def detailStep (net : String → String → DResp) (batch : Nat) (s : DSt)
    (t : DTender) : DSt × List DEv :=
  let u := dgetD t "unit_id"
  let j := dgetD t "job_number"
  let tid := u ++ "_" ++ j
  match net u j with
  | .exc => (s, [DEv.fetch u j])
  | .noneReturned => (s, [DEv.fetch u j])
  | .val v =>
      if pyTruthy v then
        let s1 : DSt :=
          { s with buffer := s.buffer ++ [v],
                   ids := if s.ids.contains tid then s.ids else s.ids ++ [tid],
                   count := s.count + 1 }
        if s1.count % batch == 0 then
          ({ s1 with disk := s1.disk ++ s1.buffer, buffer := [] },
           [DEv.fetch u j, DEv.write v, DEv.ckptWrite s1.ids, DEv.flush])
        else (s1, [DEv.fetch u j, DEv.write v])
      else (s, [DEv.fetch u j])

def detailLoop (net : String → String → DResp) (batch : Nat) :
    List DTender → DSt → DSt × List DEv
  | [], s => (s, [])
  | t :: ts, s =>
      let r := detailStep net batch s t
      let r2 := detailLoop net batch ts r.1
      (r2.1, r.2 ++ r2.2)

/-- The driver `download_tender_details`: build candidates from the list-pass output
and the loaded `downloaded_ids`, run the loop, close the sink (flush) and
write the final checkpoint. -/
def downloadTenderDetails (lines : List (Option DTender)) (ids0 : List String)
    (net : String → String → DResp) (batch : Nat) : DSt × List DEv :=
  let s0 : DSt := { ids := ids0, count := 0, buffer := [], disk := [] }
  let r := detailLoop net batch (buildCandidates lines ids0) s0
  ({ r.1 with disk := r.1.disk ++ r.1.buffer, buffer := [] },
   r.2 ++ [DEv.flush, DEv.ckptWrite r.1.ids])

/-- The `(unit_id, job_number)` pairs fetched, in order. -/
def dFetchPairs (evs : List DEv) : List (String × String) :=
  evs.filterMap fun e => match e with | .fetch u j => some (u, j) | _ => none

/-- Head condition for `dSavesPaired`: a detail-pass checkpoint write must
be immediately followed by a sink flush. -/
def dHeadOK : DEv → List DEv → Bool
  | .ckptWrite _, .flush :: _ => true
  | .ckptWrite _, _ => false
  | _, _ => true

/-- Every checkpoint write of the detail pass is immediately followed by a
sink flush. -/
def dSavesPaired : List DEv → Bool
  | [] => true
  | e :: rest => dHeadOK e rest && dSavesPaired rest

/-- Like `dSavesPaired`, but the very last event is unconstrained, so the
final checkpoint write after the detail sink is closed may end the trace. -/
def dSavesPairedF : List DEv → Bool
  | [] => true
  | [_] => true
  | e :: rest => dHeadOK e rest && dSavesPairedF rest

/-- Durable on-disk view of the detail pass: the detail sink's unflushed
buffer and flushed contents, and the last written `downloaded_ids`
checkpoint, if any. -/
structure DDiskSt where
  buffer : List JVal
  flushed : List JVal
  ckpt : Option (List String)

def dReplayStep (st : DDiskSt) : DEv → DDiskSt
  | .fetch _ _ => st
  | .write v => { st with buffer := st.buffer ++ [v] }
  | .flush => { st with flushed := st.flushed ++ st.buffer, buffer := [] }
  | .ckptWrite ids => { st with ckpt := some ids }

/-- Disk state after a prefix of the detail-pass event trace. -/
def dReplay (evs : List DEv) : DDiskSt :=
  evs.foldl dReplayStep { buffer := [], flushed := [], ckpt := none }

/-! ## Metadata date parsing: the nested `parse_date` in `download_all_data` -/

/-- A calendar date as extracted from the parsed `datetime`. -/
structure PDate where
  year : Nat
  month : Nat
  day : Nat
deriving DecidableEq

def digitVal (c : Char) : Option Nat :=
  if c.isDigit then some (c.toNat - 48) else none

def isLeap (y : Nat) : Bool :=
  (y % 4 == 0 && y % 100 != 0) || (y % 400 == 0)

def daysInMonth (y m : Nat) : Nat :=
  if m == 2 then (if isLeap y then 29 else 28)
  else if m == 4 || m == 6 || m == 9 || m == 11 then 30
  else 31

/-- Validity as enforced by `datetime`: year in `[1, 9999]`, month in
`[1, 12]`, day within the month. -/
def validYmd (y m d : Nat) : Bool :=
  1 ≤ y && y ≤ 9999 && 1 ≤ m && m ≤ 12 && 1 ≤ d && d ≤ daysInMonth y m

def num2 (a b : Char) : Option Nat :=
  match digitVal a, digitVal b with
  | some x, some y => some (10 * x + y)
  | _, _ => none

def num4 (a b c d : Char) : Option Nat :=
  match digitVal a, digitVal b, digitVal c, digitVal d with
  | some w, some x, some y, some z => some (1000 * w + 100 * x + 10 * y + z)
  | _, _, _, _ => none

/-- A valid `HH[:MM[:SS]]` time part as accepted by
`datetime.fromisoformat`. -/
def validTime : List Char → Bool
  | [h1, h2] =>
      match num2 h1 h2 with
      | some h => h < 24
      | none => false
  | [h1, h2, ':', m1, m2] =>
      match num2 h1 h2, num2 m1 m2 with
      | some h, some m => h < 24 && m < 60
      | _, _ => false
  | [h1, h2, ':', m1, m2, ':', s1, s2] =>
      match num2 h1 h2, num2 m1 m2, num2 s1 s2 with
      | some h, some m, some s => h < 24 && m < 60 && s < 60
      | _, _, _ => false
  | _ => false

/-- Python `datetime.fromisoformat` restricted to what the crawler can meet after
stripping the `+08:00` offset: `YYYY-MM-DD`, optionally followed by a
one-character separator and a time part.  Only the date survives into the
model. -/
def fromisoformat (cs : List Char) : Option PDate :=
  match cs with
  | [y1, y2, y3, y4, '-', m1, m2, '-', d1, d2] =>
      match num4 y1 y2 y3 y4, num2 m1 m2, num2 d1 d2 with
      | some y, some m, some d =>
          if validYmd y m d then some { year := y, month := m, day := d } else none
      | _, _, _ => none
  | y1 :: y2 :: y3 :: y4 :: '-' :: m1 :: m2 :: '-' :: d1 :: d2 :: _sep :: time =>
      match num4 y1 y2 y3 y4, num2 m1 m2, num2 d1 d2 with
      | some y, some m, some d =>
          if validYmd y m d && validTime time then
            some { year := y, month := m, day := d }
          else none
      | _, _, _ => none
  | _ => none

/-- Python `datetime.strptime` on `date_str[:8]` with format `%Y%m%d`: exactly eight digits
forming a valid date. -/
def strptimeYmd8 (cs : List Char) : Option PDate :=
  match cs with
  | [y1, y2, y3, y4, m1, m2, d1, d2] =>
      match num4 y1 y2 y3 y4, num2 m1 m2, num2 d1 d2 with
      | some y, some m, some d =>
          if validYmd y m d then some { year := y, month := m, day := d } else none
      | _, _, _ => none
  | _ => none

/-- Remove every occurrence of `pat` from `cs`
(`date_str.replace('+08:00', '')`).  `fuel` bounds the recursion and is
called with the full length, which always suffices because every step
consumes at least one character. -/
def removePat (pat : List Char) : Nat → List Char → List Char
  | 0, cs => cs
  | _ + 1, [] => []
  | fuel + 1, c :: cs =>
      if pat.isPrefixOf (c :: cs) then
        removePat pat fuel (List.drop pat.length (c :: cs))
      else c :: removePat pat fuel cs

def stripOffset (s : String) : List Char :=
  removePat "+08:00".toList s.toList.length s.toList

/-- The nested `parse_date` helper: empty string is falsy and yields
`None`; otherwise try ISO parsing after stripping `+08:00`, then fall back
to the first eight characters as `YYYYMMDD`, then give up. -/
def parse_date (dateStr : String) : Option PDate :=
  if dateStr = "" then none
  else
    match fromisoformat (stripOffset dateStr) with
    | some d => some d
    | none =>
        match strptimeYmd8 (dateStr.toList.take 8) with
        | some d => some d
        | none => none

/-- The range selection after parsing the metadata: if either bound fails
to parse, both are replaced by the hard-coded epoch `1999-01-21` and the
current time. -/
def crawlRange (oldestStr newestStr : String) (now : PDate) : PDate × PDate :=
  match parse_date oldestStr, parse_date newestStr with
  | some o, some n => (o, n)
  | some _, none => ({ year := 1999, month := 1, day := 21 }, now)
  | none, _ => ({ year := 1999, month := 1, day := 21 }, now)


/-! ## Helper lemmas about the fetch client -/

lemma requestLoop_all429 (env : Nat → Attempt)
    (h : ∀ i, i < 3 → env i = .rate429) :
    requestWithRetry env 3 = { sleeps := [10, 20, 30], outcome := .noneReturned } := by
  have h0 := h 0 (by omega)
  have h1 := h 1 (by omega)
  have h2 := h 2 (by omega)
  simp [requestWithRetry, requestLoop, h0, h1, h2]

lemma requestLoop_alltimeout (env : Nat → Attempt)
    (h : ∀ i, i < 3 → env i = .timeout) :
    requestWithRetry env 3 = { sleeps := [5, 5], outcome := .raised .timeout } := by
  have h0 := h 0 (by omega)
  have h1 := h 1 (by omega)
  have h2 := h 2 (by omega)
  simp [requestWithRetry, requestLoop, h0, h1, h2]

lemma listByDate_of_noneReturned (env : Nat → Attempt)
    (h : (requestWithRetry env 3).outcome = .noneReturned) :
    listByDate env = .ok (.jarr []) := by
  simp [listByDate, h]

lemma listByDate_of_nondict (env : Nat → Attempt) (v : JVal)
    (h : (requestWithRetry env 3).outcome = .value v) (hv : isObjB v = false) :
    listByDate env = .ok (.jarr []) := by
  simp [listByDate, h, hv]

/-! ## Helper lemmas about the list crawler -/

lemma fetchEvents_append (xs ys : List Ev) :
    fetchEvents (xs ++ ys) = fetchEvents xs ++ fetchEvents ys := by
  simp [fetchEvents, List.filterMap_append]

lemma fetchEvents_nil : fetchEvents [] = [] := rfl

lemma fetchEvents_fetch_cons (d : Nat) (evs : List Ev) :
    fetchEvents (Ev.fetch d :: evs) = d :: fetchEvents evs := by
  simp [fetchEvents]

lemma fetchEvents_map_sinkWrite (ls : List JVal) :
    fetchEvents (ls.map Ev.sinkWrite) = [] := by
  simp [fetchEvents]

lemma fetchEvents_saveCheck (si : Nat) (s : St) (evs : List Ev) :
    fetchEvents (saveCheck si s evs).2 = fetchEvents evs := by
  unfold saveCheck
  split
  · rw [fetchEvents_append]
    simp [fetchEvents]
  · rfl

lemma saveCheck_fst_dd (si : Nat) (s : St) (evs : List Ev) :
    (saveCheck si s evs).1.dd = s.dd := by
  unfold saveCheck; split <;> rfl

lemma saveCheck_fst_total (si : Nat) (s : St) (evs : List Ev) :
    (saveCheck si s evs).1.total = s.total := by
  unfold saveCheck; split <;> rfl

lemma fetchEvents_handleData (si : Nat) (s : St) (d : Nat) (data : JVal) :
    fetchEvents (handleData si s d data).2 = [d] := by
  unfold handleData
  by_cases ht : pyTruthy data
  · rw [if_pos ht]
    cases data <;> dsimp only [pyLen] <;>
      first
      | (split <;>
          rw [fetchEvents_saveCheck, fetchEvents_fetch_cons, fetchEvents_map_sinkWrite])
      | rw [fetchEvents_saveCheck, fetchEvents_fetch_cons, fetchEvents_nil]
  · rw [if_neg ht]
    rw [fetchEvents_saveCheck, fetchEvents_fetch_cons, fetchEvents_nil]

lemma fetchEvents_processDate (net : Nat → Nat → Attempt) (si : Nat) (s : St) (d : Nat) :
    fetchEvents (processDate net si s d).2 = [d] := by
  unfold processDate
  rcases listByDate (net d) with data | e
  · exact fetchEvents_handleData si s d data
  · dsimp only
    cases hre : isRequestException e
    · rw [if_neg Bool.false_ne_true]
      rw [fetchEvents_saveCheck, fetchEvents_fetch_cons, fetchEvents_nil]
    · rw [if_pos rfl, fetchEvents_fetch_cons, fetchEvents_nil]

lemma handleData_dd (si : Nat) (s : St) (d : Nat) (data : JVal) :
    (handleData si s d data).1.dd = s.dd ∨
    (handleData si s d data).1.dd = s.dd ++ [d] := by
  unfold handleData
  by_cases ht : pyTruthy data
  · rw [if_pos ht]
    cases data <;> dsimp only [pyLen] <;>
      first
      | (split
         · exact Or.inl (saveCheck_fst_dd _ _ _)
         · exact Or.inr (saveCheck_fst_dd _ _ _))
      | exact Or.inl (saveCheck_fst_dd _ _ _)
  · rw [if_neg ht]
    exact Or.inr (saveCheck_fst_dd _ _ _)

lemma processDate_dd (net : Nat → Nat → Attempt) (si : Nat) (s : St) (d : Nat) :
    (processDate net si s d).1.dd = s.dd ∨
    (processDate net si s d).1.dd = s.dd ++ [d] := by
  unfold processDate
  rcases listByDate (net d) with data | e
  · exact handleData_dd si s d data
  · dsimp only
    cases hre : isRequestException e
    · rw [if_neg Bool.false_ne_true]
      exact Or.inl (saveCheck_fst_dd _ _ _)
    · rw [if_pos rfl]
      exact Or.inl rfl


lemma fetchEvents_crawlLoop (net : Nat → Nat → Attempt) (si : Nat) :
    ∀ (dates : List Nat) (s : St), dates.Nodup →
      fetchEvents (crawlLoop net si dates s).2
        = dates.filter fun d => decide (d ∉ s.dd) := by
  intro dates
  induction dates with
  | nil => intro s _; rfl
  | cons d ds ih =>
      intro s hnd
      rw [List.nodup_cons] at hnd
      obtain ⟨hd, hds⟩ := hnd
      unfold crawlLoop
      by_cases hmem : d ∈ s.dd
      · rw [if_pos hmem, ih s hds, List.filter_cons]
        simp [hmem]
      · rw [if_neg hmem]
        dsimp only
        rw [fetchEvents_append, fetchEvents_processDate, ih _ hds, List.filter_cons]
        simp only [hmem, not_false_eq_true, decide_True, if_true, List.singleton_append]
        congr 1
        apply List.filter_congr
        intro x hx
        have hxd : x ≠ d := fun he => hd (he ▸ hx)
        rcases processDate_dd net si s d with h | h <;> rw [h]
        simp [List.mem_append, hxd]

lemma dateRange_nodup (startD endD : Nat) : (dateRange startD endD).Nodup :=
  List.nodup_range' startD (endD + 1 - startD) 1 Nat.one_pos


/-! ## Monotonicity of the `total_tenders` counter within one run -/

lemma ckptTotals_append (xs ys : List Ev) :
    ckptTotals (xs ++ ys) = ckptTotals xs ++ ckptTotals ys := by
  simp [ckptTotals, List.filterMap_append]

lemma ckptTotals_fetch_cons (d : Nat) (evs : List Ev) :
    ckptTotals (Ev.fetch d :: evs) = ckptTotals evs := by
  simp [ckptTotals]

lemma ckptTotals_map_sinkWrite (ls : List JVal) :
    ckptTotals (ls.map Ev.sinkWrite) = [] := by
  simp [ckptTotals]

lemma ckptTotals_saveCheck_shape (si : Nat) (s : St) (evs : List Ev)
    (h : ckptTotals evs = []) :
    ckptTotals (saveCheck si s evs).2 = [] ∨
    ckptTotals (saveCheck si s evs).2 = [(saveCheck si s evs).1.total] := by
  unfold saveCheck
  split
  · right
    rw [ckptTotals_append, h]
    rfl
  · left; exact h

lemma handleData_total_le (si : Nat) (s : St) (d : Nat) (data : JVal) :
    s.total ≤ (handleData si s d data).1.total := by
  unfold handleData
  by_cases ht : pyTruthy data
  · rw [if_pos ht]
    cases data <;> dsimp only [pyLen] <;>
      first
      | (split
         · rw [saveCheck_fst_total]
         · rw [saveCheck_fst_total]
           exact Nat.le_add_right _ _)
      | rw [saveCheck_fst_total]
  · rw [if_neg ht]
    rw [saveCheck_fst_total]

lemma processDate_total_le (net : Nat → Nat → Attempt) (si : Nat) (s : St) (d : Nat) :
    s.total ≤ (processDate net si s d).1.total := by
  unfold processDate
  rcases listByDate (net d) with data | e
  · exact handleData_total_le si s d data
  · dsimp only
    cases hre : isRequestException e
    · rw [if_neg Bool.false_ne_true, saveCheck_fst_total]
    · rw [if_pos rfl]

lemma handleData_ckptTotals (si : Nat) (s : St) (d : Nat) (data : JVal) :
    ckptTotals (handleData si s d data).2 = [] ∨
    ckptTotals (handleData si s d data).2 = [(handleData si s d data).1.total] := by
  unfold handleData
  by_cases ht : pyTruthy data
  · rw [if_pos ht]
    cases data <;> dsimp only [pyLen] <;>
      first
      | (split <;>
          exact ckptTotals_saveCheck_shape _ _ _
            (by rw [ckptTotals_fetch_cons, ckptTotals_map_sinkWrite]))
      | exact ckptTotals_saveCheck_shape _ _ _ (by rw [ckptTotals_fetch_cons]; rfl)
  · rw [if_neg ht]
    exact ckptTotals_saveCheck_shape _ _ _ (by rw [ckptTotals_fetch_cons]; rfl)

lemma processDate_ckptTotals (net : Nat → Nat → Attempt) (si : Nat) (s : St) (d : Nat) :
    ckptTotals (processDate net si s d).2 = [] ∨
    ckptTotals (processDate net si s d).2 = [(processDate net si s d).1.total] := by
  unfold processDate
  rcases listByDate (net d) with data | e
  · exact handleData_ckptTotals si s d data
  · dsimp only
    cases hre : isRequestException e
    · rw [if_neg Bool.false_ne_true]
      exact ckptTotals_saveCheck_shape _ _ _ (by rw [ckptTotals_fetch_cons]; rfl)
    · rw [if_pos rfl]
      left; rfl

lemma chain_le_head {a b : Nat} {l : List Nat} (hab : a ≤ b)
    (h : List.Chain' (· ≤ ·) (b :: l)) : List.Chain' (· ≤ ·) (a :: l) := by
  cases l with
  | nil => simp
  | cons c l =>
      rw [List.chain'_cons] at h ⊢
      exact ⟨le_trans hab h.1, h.2⟩

lemma crawlLoop_totals_chain (net : Nat → Nat → Attempt) (si : Nat) :
    ∀ (dates : List Nat) (s : St),
      List.Chain' (· ≤ ·)
        (s.total ::
          (ckptTotals (crawlLoop net si dates s).2
            ++ [(crawlLoop net si dates s).1.total])) := by
  intro dates
  induction dates with
  | nil =>
      intro s
      rw [show crawlLoop net si [] s = (s, []) from rfl]
      simp [ckptTotals, List.chain'_cons]
  | cons d ds ih =>
      intro s
      unfold crawlLoop
      by_cases hmem : d ∈ s.dd
      · rw [if_pos hmem]; exact ih s
      · rw [if_neg hmem]
        dsimp only
        rw [ckptTotals_append]
        rcases processDate_ckptTotals net si s d with h | h <;> rw [h]
        · rw [List.nil_append]
          exact chain_le_head (processDate_total_le net si s d) (ih _)
        · rw [List.cons_append, List.cons_append]
          exact List.chain'_cons.mpr ⟨processDate_total_le net si s d, ih _⟩


/-! ## Pairing of checkpoint writes with sink flushes -/

lemma headOK_fetch (d : Nat) (l : List Ev) : headOK (Ev.fetch d) l = true := by
  cases l <;> rfl

lemma headOK_sinkWrite (v : JVal) (l : List Ev) :
    headOK (Ev.sinkWrite v) l = true := by
  cases l <;> rfl

lemma headOK_sinkFlush (l : List Ev) : headOK Ev.sinkFlush l = true := by
  cases l <;> rfl

lemma savesPaired_append (xs ys : List Ev) (hx : savesPaired xs = true)
    (hy : savesPaired ys = true) : savesPaired (xs ++ ys) = true := by
  induction xs with
  | nil => simpa using hy
  | cons e rest ih =>
      rw [List.cons_append]
      unfold savesPaired at hx ⊢
      rw [Bool.and_eq_true] at hx ⊢
      obtain ⟨h1, h2⟩ := hx
      refine ⟨?_, ih h2⟩
      cases e with
      | fetch d => exact headOK_fetch d _
      | sinkWrite v => exact headOK_sinkWrite v _
      | sinkFlush => exact headOK_sinkFlush _
      | ckptWrite a b =>
          cases rest with
          | nil => simp [headOK] at h1
          | cons r rs => cases r <;> simp_all [headOK]

lemma savesPaired_cons_fetch (d : Nat) (l : List Ev) :
    savesPaired (Ev.fetch d :: l) = savesPaired l := by
  show (headOK (Ev.fetch d) l && savesPaired l) = savesPaired l
  rw [headOK_fetch, Bool.true_and]

lemma savesPaired_map_sinkWrite (ls : List JVal) :
    savesPaired (ls.map Ev.sinkWrite) = true := by
  induction ls with
  | nil => rfl
  | cons x xs ih =>
      rw [List.map_cons]
      show (headOK (Ev.sinkWrite x) (xs.map Ev.sinkWrite)
        && savesPaired (xs.map Ev.sinkWrite)) = true
      rw [headOK_sinkWrite, Bool.true_and]
      exact ih

lemma savesPaired_ckpt_flush (dd : List Nat) (t : Nat) :
    savesPaired [Ev.ckptWrite dd t, Ev.sinkFlush] = true := rfl

lemma savesPaired_saveCheck (si : Nat) (s : St) (evs : List Ev)
    (h : savesPaired evs = true) :
    savesPaired (saveCheck si s evs).2 = true := by
  unfold saveCheck
  split
  · exact savesPaired_append evs _ h (savesPaired_ckpt_flush s.dd s.total)
  · exact h

lemma savesPaired_handleData (si : Nat) (s : St) (d : Nat) (data : JVal) :
    savesPaired (handleData si s d data).2 = true := by
  unfold handleData
  by_cases ht : pyTruthy data
  · rw [if_pos ht]
    cases data <;> dsimp only [pyLen] <;>
      first
      | (split <;>
          (apply savesPaired_saveCheck
           rw [savesPaired_cons_fetch]
           exact savesPaired_map_sinkWrite _))
      | (apply savesPaired_saveCheck
         rw [savesPaired_cons_fetch]
         rfl)
  · rw [if_neg ht]
    apply savesPaired_saveCheck
    rw [savesPaired_cons_fetch]
    rfl

lemma savesPaired_processDate (net : Nat → Nat → Attempt) (si : Nat) (s : St) (d : Nat) :
    savesPaired (processDate net si s d).2 = true := by
  unfold processDate
  rcases listByDate (net d) with data | e
  · exact savesPaired_handleData si s d data
  · dsimp only
    cases hre : isRequestException e
    · rw [if_neg Bool.false_ne_true]
      apply savesPaired_saveCheck
      rw [savesPaired_cons_fetch]
      rfl
    · rw [if_pos rfl]
      rw [savesPaired_cons_fetch]
      rfl

lemma savesPaired_crawlLoop (net : Nat → Nat → Attempt) (si : Nat) :
    ∀ (dates : List Nat) (s : St),
      savesPaired (crawlLoop net si dates s).2 = true := by
  intro dates
  induction dates with
  | nil => intro s; rfl
  | cons d ds ih =>
      intro s
      unfold crawlLoop
      by_cases hmem : d ∈ s.dd
      · rw [if_pos hmem]; exact ih s
      · rw [if_neg hmem]
        dsimp only
        exact savesPaired_append _ _ (savesPaired_processDate net si s d) (ih _)

lemma savesPairedF_of_savesPaired (xs : List Ev) (a : List Nat) (b : Nat)
    (hx : savesPaired xs = true) :
    savesPairedF (xs ++ [Ev.sinkFlush, Ev.ckptWrite a b]) = true := by
  induction xs with
  | nil => rfl
  | cons e rest ih =>
      unfold savesPaired at hx
      rw [Bool.and_eq_true] at hx
      obtain ⟨h1, h2⟩ := hx
      cases rest with
      | nil =>
          cases e with
          | fetch d => rfl
          | sinkWrite v => rfl
          | sinkFlush => rfl
          | ckptWrite c t => simp [headOK] at h1
      | cons r rs =>
          rw [List.cons_append]
          have htail := ih h2
          show (headOK e (r :: (rs ++ [Ev.sinkFlush, Ev.ckptWrite a b]))
            && savesPairedF (r :: (rs ++ [Ev.sinkFlush, Ev.ckptWrite a b]))) = true
          rw [Bool.and_eq_true]
          constructor
          · cases e with
            | fetch d => exact headOK_fetch d _
            | sinkWrite v => exact headOK_sinkWrite v _
            | sinkFlush => exact headOK_sinkFlush _
            | ckptWrite c t => cases r <;> simp_all [headOK]
          · exact htail


/-! ## Record stamping and sink writes -/

lemma writeItems_all_jobj (d : Nat) :
    ∀ (items : List JVal), (∀ r ∈ items, isObjB r = true) →
      writeItems d items = (items.map (stampRec d), false) := by
  intro items
  induction items with
  | nil => intro _; rfl
  | cons r rs ih =>
      intro h
      have hr := h r (List.mem_cons_self r rs)
      cases r <;> simp [isObjB] at hr
      have hrs := ih fun x hx => h x (List.mem_cons_of_mem _ hx)
      show ((JVal.jobj _ :: (writeItems d rs).1, (writeItems d rs).2) :
        List JVal × Bool) = _
      rw [hrs]
      simp [stampRec]

lemma sinkWrites_append (xs ys : List Ev) :
    sinkWrites (xs ++ ys) = sinkWrites xs ++ sinkWrites ys := by
  simp [sinkWrites, List.filterMap_append]

lemma sinkWrites_saveCheck (si : Nat) (s : St) (evs : List Ev) :
    sinkWrites (saveCheck si s evs).2 = sinkWrites evs := by
  unfold saveCheck
  split
  · rw [sinkWrites_append]
    simp [sinkWrites]
  · rfl

lemma sinkWrites_fetch_cons (d : Nat) (evs : List Ev) :
    sinkWrites (Ev.fetch d :: evs) = sinkWrites evs := by
  simp [sinkWrites]

lemma sinkWrites_map_sinkWrite (ls : List JVal) :
    sinkWrites (ls.map Ev.sinkWrite) = ls := by
  induction ls with
  | nil => rfl
  | cons x xs ih =>
      rw [List.map_cons]
      show x :: sinkWrites (xs.map Ev.sinkWrite) = x :: xs
      rw [ih]

/-! ## Fetch pairs of the detail loop -/

lemma dFetchPairs_append (xs ys : List DEv) :
    dFetchPairs (xs ++ ys) = dFetchPairs xs ++ dFetchPairs ys := by
  simp [dFetchPairs, List.filterMap_append]

lemma dFetchPairs_detailStep (net : String → String → DResp) (batch : Nat)
    (s : DSt) (t : DTender) :
    dFetchPairs (detailStep net batch s t).2
      = [(dgetD t "unit_id", dgetD t "job_number")] := by
  unfold detailStep
  dsimp only
  rcases hnet : net (dgetD t "unit_id") (dgetD t "job_number") with v | _ | _
  · dsimp only
    by_cases hv : pyTruthy v
    · rw [if_pos hv]
      split <;> rfl
    · rw [if_neg hv]
      rfl
  · rfl
  · rfl

lemma dFetchPairs_detailLoop (net : String → String → DResp) (batch : Nat) :
    ∀ (ts : List DTender) (s : DSt),
      dFetchPairs (detailLoop net batch ts s).2
        = ts.map fun t => (dgetD t "unit_id", dgetD t "job_number") := by
  intro ts
  induction ts with
  | nil => intro s; rfl
  | cons t ts ih =>
      intro s
      unfold detailLoop
      dsimp only
      rw [dFetchPairs_append, dFetchPairs_detailStep, ih, List.map_cons]
      rfl


/-! ## Claim theorems -/

/-- C6: the list crawl walks the closed interval `[start, end]` in strictly
ascending order, fetching exactly the dates not in the loaded checkpoint
(each at most once) and skipping checkpointed dates without any fetch; in
particular a run resumed after checkpointing date D does not re-fetch D and
does fetch D+1. -/
theorem listCrawl_ascending_skips_checkpointed (net : Nat → Nat → Attempt)
    (startD endD : Nat) (init : List Nat) (si : Nat) :
    fetchEvents (downloadAllData net startD endD init si).2
      = (dateRange startD endD).filter (fun d => decide (d ∉ init))
    ∧ (fetchEvents (downloadAllData net startD endD init si).2).Pairwise (· < ·) := by
  have he : fetchEvents (downloadAllData net startD endD init si).2
      = (dateRange startD endD).filter fun d => decide (d ∉ init) := by
    unfold downloadAllData
    dsimp only
    rw [fetchEvents_append,
      fetchEvents_crawlLoop net si _ _ (dateRange_nodup startD endD)]
    show _ ++ [] = _
    rw [List.append_nil]
  refine ⟨he, ?_⟩
  rw [he]
  exact (List.pairwise_lt_range' startD _ 1 (by omega)).filter _

/-- C8: with responses 429, 429, success, `_request_with_retry` sleeps
exactly twice, for `10 * 1` then `10 * 2` seconds (strictly increasing,
following `base * attempt_number`), and then returns the parsed body. -/
theorem backoff_429_twice_then_success (env : Nat → Attempt) (v : JVal)
    (h0 : env 0 = .rate429) (h1 : env 1 = .rate429) (h2 : env 2 = .ok v) :
    requestWithRetry env 3 = { sleeps := [10 * 1, 10 * 2], outcome := .value v }
    ∧ 10 * 1 < 10 * 2 := by
  constructor
  · simp [requestWithRetry, requestLoop, h0, h1, h2]
  · omega

/-- Witness for C8 at a concrete environment. -/
theorem backoff_429_twice_then_success_witness :
    requestWithRetry
        (fun i => if i == 0 || i == 1 then Attempt.rate429
                  else .ok (.jobj [("records", .jarr [])])) 3
      = { sleeps := [10 * 1, 10 * 2],
          outcome := .value (.jobj [("records", .jarr [])]) }
    ∧ 10 * 1 < 10 * 2 :=
  backoff_429_twice_then_success _ _ rfl rfl rfl

/-- C9: metadata date strings parse with the three-stage fallback (ISO with
the `+08:00` suffix stripped, then the first eight characters as `YYYYMMDD`,
then the hard-coded default range), and the documented metadata response
yields the range 1999-01-21 .. 2026-01-06. -/
theorem metadata_date_parsing_fallbacks (now : PDate) :
    parse_date "1999-01-21T00:00:00+08:00"
      = some { year := 1999, month := 1, day := 21 }
    ∧ parse_date "2026-01-06T00:00:00+08:00"
      = some { year := 2026, month := 1, day := 6 }
    ∧ crawlRange "1999-01-21T00:00:00+08:00" "2026-01-06T00:00:00+08:00" now
      = ({ year := 1999, month := 1, day := 21 },
         { year := 2026, month := 1, day := 6 })
    ∧ parse_date "20260106junk" = some { year := 2026, month := 1, day := 6 }
    ∧ parse_date "not a date" = none
    ∧ crawlRange "not a date" "2026-01-06T00:00:00+08:00" now
      = ({ year := 1999, month := 1, day := 21 }, now) := by
  have h1 : parse_date "1999-01-21T00:00:00+08:00"
      = some { year := 1999, month := 1, day := 21 } := by decide
  have h2 : parse_date "2026-01-06T00:00:00+08:00"
      = some { year := 2026, month := 1, day := 6 } := by decide
  have h3 : parse_date "not a date" = none := by decide
  refine ⟨h1, h2, ?_, by decide, h3, ?_⟩
  · unfold crawlRange
    rw [h1, h2]
  · unfold crawlRange
    rw [h3]

/-- C10: `list_by_date` is total over the response shape: when the retry
helper falls through to `return None` (for example when every attempt
answers 429) or when the parsed body is not a dict, it returns the empty
list — the same value a genuinely empty day (`{"records": []}`) yields. -/
theorem listByDate_total_none_and_nondict :
    (∀ env : Nat → Attempt, (requestWithRetry env 3).outcome = .noneReturned →
      listByDate env = .ok (.jarr []))
    ∧ (∀ (env : Nat → Attempt) (v : JVal),
        (requestWithRetry env 3).outcome = .value v → isObjB v = false →
        listByDate env = .ok (.jarr []))
    ∧ (∀ env : Nat → Attempt, (∀ i, i < 3 → env i = .rate429) →
        listByDate env = .ok (.jarr []))
    ∧ listByDate (fun _ => .ok (.jobj [("records", .jarr [])])) = .ok (.jarr []) := by
  refine ⟨listByDate_of_noneReturned, listByDate_of_nondict, ?_, by rfl⟩
  intro env h
  exact listByDate_of_noneReturned env (by rw [requestLoop_all429 env h])

/-- Witness for C10: all-429 exhaustion and a non-dict body both yield the
empty list. -/
theorem listByDate_total_none_and_nondict_witness :
    listByDate (fun _ => Attempt.rate429) = .ok (.jarr [])
    ∧ listByDate (fun _ => .ok (.jstr "oops")) = .ok (.jarr []) :=
  ⟨listByDate_total_none_and_nondict.2.2.1 (fun _ => .rate429)
      (fun _ _ => rfl),
   listByDate_total_none_and_nondict.2.1 _ (.jstr "oops") rfl rfl⟩


/-! ## Pairing of detail-pass checkpoint writes with sink flushes -/

lemma dHeadOK_fetch (u j : String) (l : List DEv) :
    dHeadOK (DEv.fetch u j) l = true := by
  cases l <;> rfl

lemma dHeadOK_write (v : JVal) (l : List DEv) :
    dHeadOK (DEv.write v) l = true := by
  cases l <;> rfl

lemma dHeadOK_flush (l : List DEv) : dHeadOK DEv.flush l = true := by
  cases l <;> rfl

lemma dSavesPaired_append (xs ys : List DEv) (hx : dSavesPaired xs = true)
    (hy : dSavesPaired ys = true) : dSavesPaired (xs ++ ys) = true := by
  induction xs with
  | nil => simpa using hy
  | cons e rest ih =>
      rw [List.cons_append]
      unfold dSavesPaired at hx ⊢
      rw [Bool.and_eq_true] at hx ⊢
      obtain ⟨h1, h2⟩ := hx
      refine ⟨?_, ih h2⟩
      cases e with
      | fetch u j => exact dHeadOK_fetch u j _
      | write v => exact dHeadOK_write v _
      | flush => exact dHeadOK_flush _
      | ckptWrite ids =>
          cases rest with
          | nil => simp [dHeadOK] at h1
          | cons r rs => cases r <;> simp_all [dHeadOK]

lemma dSavesPaired_detailStep (net : String → String → DResp) (batch : Nat)
    (s : DSt) (t : DTender) :
    dSavesPaired (detailStep net batch s t).2 = true := by
  unfold detailStep
  dsimp only
  rcases hnet : net (dgetD t "unit_id") (dgetD t "job_number") with v | _ | _
  · dsimp only
    by_cases hv : pyTruthy v
    · rw [if_pos hv]
      split <;> rfl
    · rw [if_neg hv]
      rfl
  · rfl
  · rfl

lemma dSavesPaired_detailLoop (net : String → String → DResp) (batch : Nat) :
    ∀ (ts : List DTender) (s : DSt),
      dSavesPaired (detailLoop net batch ts s).2 = true := by
  intro ts
  induction ts with
  | nil => intro s; rfl
  | cons t ts ih =>
      intro s
      unfold detailLoop
      dsimp only
      exact dSavesPaired_append _ _ (dSavesPaired_detailStep net batch s t) (ih _)

lemma dSavesPairedF_of_dSavesPaired (xs : List DEv) (ids : List String)
    (hx : dSavesPaired xs = true) :
    dSavesPairedF (xs ++ [DEv.flush, DEv.ckptWrite ids]) = true := by
  induction xs with
  | nil => rfl
  | cons e rest ih =>
      unfold dSavesPaired at hx
      rw [Bool.and_eq_true] at hx
      obtain ⟨h1, h2⟩ := hx
      cases rest with
      | nil =>
          cases e with
          | fetch u j => rfl
          | write v => rfl
          | flush => rfl
          | ckptWrite c => simp [dHeadOK] at h1
      | cons r rs =>
          rw [List.cons_append]
          have htail := ih h2
          show (dHeadOK e (r :: (rs ++ [DEv.flush, DEv.ckptWrite ids]))
            && dSavesPairedF (r :: (rs ++ [DEv.flush, DEv.ckptWrite ids]))) = true
          rw [Bool.and_eq_true]
          constructor
          · cases e with
            | fetch u j => exact dHeadOK_fetch u j _
            | write v => exact dHeadOK_write v _
            | flush => exact dHeadOK_flush _
            | ckptWrite c => cases r <;> simp_all [dHeadOK]
          · exact htail

/-! ## Computation lemmas for small concrete runs -/

lemma processDate_req_exc (net : Nat → Nat → Attempt) (si : Nat) (s : St)
    (d : Nat) (e : PyExc) (h : listByDate (net d) = .exc e)
    (hre : isRequestException e = true) :
    processDate net si s d = (s, [Ev.fetch d]) := by
  unfold processDate
  rw [h]
  dsimp only
  rw [if_pos hre]

lemma processDate_ok (net : Nat → Nat → Attempt) (si : Nat) (s : St)
    (d : Nat) (data : JVal) (h : listByDate (net d) = .ok data) :
    processDate net si s d = handleData si s d data := by
  unfold processDate
  rw [h]

lemma handleData_jarr_nil (si : Nat) (s : St) (d : Nat) :
    handleData si s d (.jarr [])
      = saveCheck si { s with dd := s.dd ++ [d], dc := s.dc + 1 } [Ev.fetch d] := by
  rfl

lemma handleData_jarr_spec (si : Nat) (s : St) (d : Nat) (rs : List JVal)
    (h2 : ∀ r ∈ rs, isObjB r = true) :
    sinkWrites (handleData si s d (.jarr rs)).2 = rs.map (stampRec d)
    ∧ (handleData si s d (.jarr rs)).1.dd = s.dd ++ [d] := by
  cases rs with
  | nil =>
      rw [handleData_jarr_nil]
      constructor
      · rw [sinkWrites_saveCheck]
        rfl
      · rw [saveCheck_fst_dd]
  | cons r rs' =>
      have hw := writeItems_all_jobj d (r :: rs') h2
      unfold handleData
      rw [if_pos (by rfl)]
      dsimp only [pyLen]
      rw [hw]
      dsimp only
      rw [if_neg Bool.false_ne_true]
      constructor
      · rw [sinkWrites_saveCheck, sinkWrites_fetch_cons, sinkWrites_map_sinkWrite]
      · rw [saveCheck_fst_dd]

lemma dateRange_single (d : Nat) : dateRange d d = [d] := by
  unfold dateRange
  have h : d + 1 - d = 1 := by omega
  rw [h]
  rfl

lemma dateRange_pair (d : Nat) : dateRange d (d + 1) = [d, d + 1] := by
  unfold dateRange
  have h : d + 1 + 1 - d = 2 := by omega
  rw [h]
  rfl

lemma downloadAllData_single_spec (net : Nat → Nat → Attempt) (si d : Nat)
    (rs : List JVal) (h1 : listByDate (net d) = .ok (.jarr rs))
    (h2 : ∀ r ∈ rs, isObjB r = true) :
    sinkWrites (downloadAllData net d d [] si).2 = rs.map (stampRec d)
    ∧ d ∈ (downloadAllData net d d [] si).1.dd := by
  obtain ⟨hw, hdd⟩ := handleData_jarr_spec si ⟨[], 0, 0, [], []⟩ d rs h2
  have hpd := processDate_ok net si ⟨[], 0, 0, [], []⟩ d (.jarr rs) h1
  unfold downloadAllData
  dsimp only
  rw [dateRange_single]
  unfold crawlLoop
  rw [if_neg (List.not_mem_nil d)]
  dsimp only
  rw [hpd]
  constructor
  · rw [sinkWrites_append, sinkWrites_append, hw]
    show rs.map (stampRec d) ++ [] ++ [] = rs.map (stampRec d)
    rw [List.append_nil, List.append_nil]
  · show d ∈ (handleData si ⟨[], 0, 0, [], []⟩ d (.jarr rs)).1.dd
    rw [hdd]
    exact List.mem_append_right [] (List.mem_singleton_self d)


/-- C7: a date whose list endpoint successfully answers with
`{"records": []}` appends zero records and is still marked complete; a date
with records has each record stamped with its source date (the
`_download_date` field) before being appended, in order. -/
theorem emptyDay_checkpointed_records_stamped (net : Nat → Nat → Attempt)
    (si d : Nat) (rs : List JVal)
    (h1 : listByDate (net d) = .ok (.jarr rs))
    (h2 : ∀ r ∈ rs, isObjB r = true) :
    sinkWrites (downloadAllData net d d [] si).2 = rs.map (stampRec d)
    ∧ d ∈ (downloadAllData net d d [] si).1.dd :=
  downloadAllData_single_spec net si d rs h1 h2

/-- Witness for C7: an empty day appends nothing yet is checkpointed, and a
one-record day appends exactly the stamped record. -/
theorem emptyDay_checkpointed_records_stamped_witness :
    (sinkWrites (downloadAllData
        (fun _ _ => .ok (.jobj [("records", .jarr [])])) 0 0 [] 100).2 = []
      ∧ 0 ∈ (downloadAllData
        (fun _ _ => .ok (.jobj [("records", .jarr [])])) 0 0 [] 100).1.dd)
    ∧ (sinkWrites (downloadAllData
        (fun _ _ => .ok (.jobj [("records",
          .jarr [.jobj [("x", .jstr "1")]])])) 0 0 [] 100).2
        = [.jobj [("x", .jstr "1"), ("_download_date", .jstr "0")]]
      ∧ 0 ∈ (downloadAllData
        (fun _ _ => .ok (.jobj [("records",
          .jarr [.jobj [("x", .jstr "1")]])])) 0 0 [] 100).1.dd) := by
  constructor
  · exact emptyDay_checkpointed_records_stamped
      (fun _ _ => .ok (.jobj [("records", .jarr [])])) 100 0 [] rfl
      (fun r hr => absurd hr (List.not_mem_nil r))
  · exact emptyDay_checkpointed_records_stamped
      (fun _ _ => .ok (.jobj [("records", .jarr [.jobj [("x", .jstr "1")]])]))
      100 0 [.jobj [("x", .jstr "1")]] rfl
      (fun r hr => by rw [List.mem_singleton] at hr; subst hr; rfl)


/-- C5: when every attempt times out, `_request_with_retry` sleeps a fixed
5 seconds between its bounded attempts and then lets the `Timeout`
exception propagate (it is not swallowed into a value); the list crawler
catches it, leaves the date unmarked, and continues with the next date,
which it fetches and marks normally. -/
theorem timeout_bounded_retry_propagates_crawl_continues
    (net : Nat → Nat → Attempt) (d si : Nat)
    (h1 : ∀ i, i < 3 → net d i = .timeout)
    (h2 : net (d + 1) 0 = .ok (.jobj [("records", .jarr [])])) :
    requestWithRetry (net d) 3 = { sleeps := [5, 5], outcome := .raised .timeout }
    ∧ fetchEvents (downloadAllData net d (d + 1) [] si).2 = [d, d + 1]
    ∧ d ∉ (downloadAllData net d (d + 1) [] si).1.dd
    ∧ d + 1 ∈ (downloadAllData net d (d + 1) [] si).1.dd := by
  have hreq := requestLoop_alltimeout (net d) h1
  have hlbd : listByDate (net d) = .exc .timeout := by simp [listByDate, hreq]
  have hreq2 : requestWithRetry (net (d + 1)) 3
      = { sleeps := [], outcome := .value (.jobj [("records", .jarr [])]) } := by
    simp [requestWithRetry, requestLoop, h2]
  have hlbd2 : listByDate (net (d + 1)) = .ok (.jarr []) := by
    simp [listByDate, hreq2, pyTruthy, isObjB, getKeyD, lookupField]
  have hpd1 := processDate_req_exc net si ⟨[], 0, 0, [], []⟩ d PyExc.timeout hlbd rfl
  have hpd2 := processDate_ok net si ⟨[], 0, 0, [], []⟩ (d + 1) (.jarr []) hlbd2
  have hdd : (downloadAllData net d (d + 1) [] si).1.dd = [d + 1] := by
    unfold downloadAllData
    dsimp only
    rw [dateRange_pair]
    unfold crawlLoop
    rw [if_neg (List.not_mem_nil d)]
    dsimp only
    rw [hpd1]
    unfold crawlLoop
    rw [if_neg (List.not_mem_nil (d + 1))]
    dsimp only
    rw [hpd2, handleData_jarr_nil]
    show (saveCheck si ⟨[] ++ [d + 1], 0 + 1, 0, [], []⟩ [Ev.fetch (d + 1)]).1.dd = [d + 1]
    rw [saveCheck_fst_dd]
    show [] ++ [d + 1] = [d + 1]
    rw [List.nil_append]
  refine ⟨hreq, ?_, ?_, ?_⟩
  · unfold downloadAllData
    dsimp only
    rw [fetchEvents_append,
      fetchEvents_crawlLoop net si _ _ (dateRange_nodup d (d + 1))]
    show (dateRange d (d + 1)).filter _ ++ [] = _
    rw [List.append_nil, dateRange_pair]
    simp
  · rw [hdd]
    simp
  · rw [hdd]
    exact List.mem_singleton_self (d + 1)


/-- Witness for C5 at a concrete network: date 0 always times out, date 1
succeeds with an empty day. -/
theorem timeout_bounded_retry_propagates_crawl_continues_witness :
    requestWithRetry
        ((fun a _ => if a = 0 then Attempt.timeout
                     else .ok (.jobj [("records", .jarr [])])) 0) 3
      = { sleeps := [5, 5], outcome := .raised .timeout }
    ∧ fetchEvents (downloadAllData
        (fun a _ => if a = 0 then Attempt.timeout
                    else .ok (.jobj [("records", .jarr [])])) 0 1 [] 100).2
      = [0, 1]
    ∧ 0 ∉ (downloadAllData
        (fun a _ => if a = 0 then Attempt.timeout
                    else .ok (.jobj [("records", .jarr [])])) 0 1 [] 100).1.dd
    ∧ 1 ∈ (downloadAllData
        (fun a _ => if a = 0 then Attempt.timeout
                    else .ok (.jobj [("records", .jarr [])])) 0 1 [] 100).1.dd :=
  timeout_bounded_retry_propagates_crawl_continues
    (fun a _ => if a = 0 then Attempt.timeout
                else .ok (.jobj [("records", .jarr [])]))
    0 100 (fun _ _ => rfl) rfl

/-- C1 (amended): exhausting the retry budget on HTTP 429 does not raise;
`_request_with_retry` falls through to `return None`, `list_by_date` turns
that into the empty record list, and the crawler marks the date complete
with zero records appended — the date does not stay pending. -/
theorem rateLimit_exhaustion_none_marks_complete
    (net : Nat → Nat → Attempt) (d si : Nat)
    (h : ∀ i, i < 3 → net d i = .rate429) :
    (requestWithRetry (net d) 3).outcome = .noneReturned
    ∧ listByDate (net d) = .ok (.jarr [])
    ∧ d ∈ (downloadAllData net d d [] si).1.dd
    ∧ sinkWrites (downloadAllData net d d [] si).2 = [] := by
  have hreq := requestLoop_all429 (net d) h
  have hout : (requestWithRetry (net d) 3).outcome = .noneReturned := by rw [hreq]
  have hlbd := listByDate_of_noneReturned (net d) hout
  obtain ⟨hw, hdd⟩ := downloadAllData_single_spec net si d [] hlbd
    (fun r hr => absurd hr (List.not_mem_nil r))
  exact ⟨hout, hlbd, hdd, hw⟩

/-- Witness for C1 (amended) at a concrete all-429 network. -/
theorem rateLimit_exhaustion_none_marks_complete_witness :
    (requestWithRetry ((fun _ _ => Attempt.rate429) 0) 3).outcome = .noneReturned
    ∧ listByDate ((fun _ _ => Attempt.rate429) 0) = .ok (.jarr [])
    ∧ 0 ∈ (downloadAllData (fun _ _ => Attempt.rate429) 0 0 [] 100).1.dd
    ∧ sinkWrites (downloadAllData (fun _ _ => Attempt.rate429) 0 0 [] 100).2 = [] :=
  rateLimit_exhaustion_none_marks_complete (fun _ _ => Attempt.rate429) 0 100
    (fun _ _ => rfl)

/-- Counterexample to C1 as stated: with every attempt answered 429, no
error surfaces (the fetch returns `None`) and the crawler DOES mark the
date complete in the checkpoint, so the date does not remain pending. -/
theorem rateLimited_claim_counterexample :
    0 ∈ (downloadAllData (fun _ _ => Attempt.rate429) 0 0 [] 100).1.dd
    ∧ (requestWithRetry (fun _ => Attempt.rate429) 3).outcome = .noneReturned := by
  constructor
  · decide
  · rfl


/-- C2 (amended): the detail crawler fetches exactly one request per
qualifying occurrence in the list output — a parsed record with both
identifier fields non-empty whose id string is not in the checkpoint loaded
at start.  Pairs already checkpointed are never fetched and records with a
missing or empty identifier produce no fetch, but nothing deduplicates
repeated pairs within a run: a pair occurring N times is fetched N times. -/
theorem detailFetch_once_per_candidate_occurrence
    (lines : List (Option DTender)) (ids0 : List String)
    (net : String → String → DResp) (batch : Nat) :
    dFetchPairs (downloadTenderDetails lines ids0 net batch).2
      = (buildCandidates lines ids0).map
          fun t => (dgetD t "unit_id", dgetD t "job_number") := by
  unfold downloadTenderDetails
  dsimp only
  rw [dFetchPairs_append, dFetchPairs_detailLoop]
  show _ ++ [] = _
  rw [List.append_nil]

/-- Counterexample to C2 as stated: the identifier pair (u, j) appears
twice in the list output and is not checkpointed, and the detail crawler
fetches it twice in one run — more than once. -/
theorem detailFetch_at_most_once_counterexample :
    ¬ ((dFetchPairs (downloadTenderDetails
          [some { fields := [("unit_id", "u"), ("job_number", "j")] },
           some { fields := [("unit_id", "u"), ("job_number", "j")] }]
          [] (fun _ _ => DResp.noneReturned) 1000).2).count ("u", "j") ≤ 1) := by
  decide

/-- C3 (amended): in both passes every periodic checkpoint write is
immediately followed by the sink flush of the same save (the checkpoint is
written first, then the sink flushed), the final checkpoint write comes
after the closing flush and ends the trace, and at end of run the sink
buffer is empty, so the final on-disk checkpoint lists no completed unit
with unflushed records — shown for the list pass (`download_all_data`) and
the detail pass (`download_tender_details`) alike. -/
theorem checkpoint_write_paired_with_flush (net : Nat → Nat → Attempt)
    (startD endD : Nat) (init : List Nat) (si : Nat)
    (lines : List (Option DTender)) (ids0 : List String)
    (dnet : String → String → DResp) (batch : Nat) :
    savesPairedF (downloadAllData net startD endD init si).2 = true
    ∧ (replay (downloadAllData net startD endD init si).2).buffer = []
    ∧ dSavesPairedF (downloadTenderDetails lines ids0 dnet batch).2 = true
    ∧ (dReplay (downloadTenderDetails lines ids0 dnet batch).2).buffer = [] := by
  refine ⟨?_, ?_, ?_, ?_⟩
  · unfold downloadAllData
    dsimp only
    exact savesPairedF_of_savesPaired _ _ _
      (savesPaired_crawlLoop net si (dateRange startD endD) _)
  · unfold downloadAllData
    dsimp only
    rw [replay, List.foldl_append]
    rfl
  · unfold downloadTenderDetails
    dsimp only
    exact dSavesPairedF_of_dSavesPaired _ _
      (dSavesPaired_detailLoop dnet batch (buildCandidates lines ids0) _)
  · unfold downloadTenderDetails
    dsimp only
    rw [dReplay, List.foldl_append]
    rfl

/-- Counterexample to C3 as stated: after the periodic save's checkpoint
write but before its sink flush, the on-disk checkpoint lists date 0 as
complete while the record of date 0 is still in the unflushed sink buffer. -/
theorem checkpoint_before_flush_counterexample :
    ∃ p q : List Ev,
      p ++ q = (downloadAllData
          (fun _ _ => .ok (.jobj [("records", .jarr [.jobj [("a", .jstr "b")]])]))
          0 0 [] 1).2
      ∧ violation (replay p) = true := by
  refine ⟨[Ev.fetch 0,
    Ev.sinkWrite (.jobj [("a", .jstr "b"), ("_download_date", .jstr "0")]),
    Ev.ckptWrite [0] 1],
    [Ev.sinkFlush, Ev.sinkFlush, Ev.ckptWrite [0] 1], rfl, rfl⟩

/-- C4 (amended): within a single run the `total_tenders` counter recorded
by successive checkpoint writes is monotonically non-decreasing. -/
theorem ckptTotals_monotone_within_run (net : Nat → Nat → Attempt)
    (startD endD : Nat) (init : List Nat) (si : Nat) :
    List.Chain' (· ≤ ·)
      (ckptTotals (downloadAllData net startD endD init si).2) := by
  unfold downloadAllData
  dsimp only
  rw [ckptTotals_append]
  have h := crawlLoop_totals_chain net si (dateRange startD endD)
    ⟨init, 0, 0, [], []⟩
  exact h.tail

/-- Counterexample to C4 as stated: a second run that loads the first
run's checkpointed date set restarts `total_tenders` at zero (the loader
only reads the date set), so across the two runs the flushed counters go
2 then 1 — not monotone. -/
theorem ckptTotals_cross_run_counterexample :
    ¬ List.Chain' (· ≤ ·)
      (ckptTotals (downloadAllData
          (fun _ _ => .ok (.jobj [("records",
            .jarr [.jobj [("x", .jstr "1")], .jobj [("y", .jstr "2")]])]))
          0 0 [] 100).2
        ++ ckptTotals (downloadAllData
          (fun _ _ => .ok (.jobj [("records", .jarr [.jobj [("x", .jstr "1")]])]))
          0 1
          (downloadAllData
            (fun _ _ => .ok (.jobj [("records",
              .jarr [.jobj [("x", .jstr "1")], .jobj [("y", .jstr "2")]])]))
            0 0 [] 100).1.dd
          100).2) := by
  have h : ckptTotals (downloadAllData
          (fun _ _ => .ok (.jobj [("records",
            .jarr [.jobj [("x", .jstr "1")], .jobj [("y", .jstr "2")]])]))
          0 0 [] 100).2
        ++ ckptTotals (downloadAllData
          (fun _ _ => .ok (.jobj [("records", .jarr [.jobj [("x", .jstr "1")]])]))
          0 1
          (downloadAllData
            (fun _ _ => .ok (.jobj [("records",
              .jarr [.jobj [("x", .jstr "1")], .jobj [("y", .jstr "2")]])]))
            0 0 [] 100).1.dd
          100).2 = [2, 1] := rfl
  rw [h]
  intro hc
  have h21 := (List.chain'_cons.mp hc).1
  omega

end PCC
